import Mathlib

/-!
# Verification of the messagely user/message core

Shallow embedding of `src/models/user.js` (the `User` model together with the
message router in the same file) over an explicit database state.  The
database is the pair of the `users` and `messages` tables of the conceptual
schema `users(username PK, password, first_name, last_name, phone, join_at,
last_login_at)` and `messages(id PK, from_username, to_username, body,
sent_at, read_at NULLABLE)`.

Conventions of the embedding:
* timestamps (`current_timestamp`) are passed in as an explicit `now : Nat`;
* the ambient Express objects `res`/`next` that the model methods reference
  are treated as pass-through: `res.json(x)` yields `x` and `next(e)`
  propagates the error `e` (the spec's design notes direct exactly this
  replacement of the ambient caller context by explicit results);
* a JavaScript value that may be `undefined` is an `Option`;
* the bcrypt primitive is an external collaborator; it is modelled by an
  injective tagging function so that `bcrypt_compare p h` holds exactly when
  `h` is the hash derived from `p`.

The `Message` model (`src/models/message.js`) is not present in the sources;
only its router is.  Its operations are modelled from the spec where needed
and are marked `Modelled from the spec:` in their doc comments.
-/

/-- A row of the `users` table.  The `password` column stores the bcrypt
hash after registration. -/
structure UserRec where
  username : String
  password : String
  first_name : String
  last_name : String
  phone : String
  join_at : Nat
  last_login_at : Nat
  deriving DecidableEq, Repr

/-- A row of the `messages` table; `read_at = none` models SQL NULL. -/
structure MessageRec where
  id : Nat
  from_username : String
  to_username : String
  body : String
  sent_at : Nat
  read_at : Option Nat
  deriving DecidableEq, Repr

/-- The whole database state. -/
structure DB where
  users : List UserRec
  messages : List MessageRec
  deriving DecidableEq, Repr

/-- Error outcomes of the operations (the JS code signals them by thrown
errors or failed queries). -/
inductive Err where
  /-- `ExpressError(..., 404)` or a spec `NotFoundError`. -/
  | notFound404
  /-- Spec `ForbiddenError`: authenticated but not authorized. -/
  | forbidden
  /-- Primary-key violation raised by the store on a duplicate INSERT. -/
  | uniqueViolation
  /-- Spec `ValidationError` (empty body on message creation). -/
  | validationError
  /-- JavaScript `TypeError` (destructuring a property of `undefined`). -/
  | typeError
  /-- SQL error: a column reference appears in a query with no FROM clause. -/
  | sqlNoFrom
  /-- SQL error: the query names a column the table does not have. -/
  | sqlUndefinedColumn
  deriving DecidableEq, Repr

/-- A JavaScript value that is either `undefined` or a boolean; the result
type of `User.authenticate` (`user && await bcrypt.compare(...)`). -/
inductive JSVal where
  | undef
  | bool (b : Bool)
  deriving DecidableEq, Repr

/-- Model of the bcrypt hash of a password (external primitive, abstracted
as an injective tagging). -/
def bcrypt_hash (password : String) : String :=
  "$2b$12$" ++ password

/-- Model of `bcrypt.compare`: verification succeeds exactly when the hash
was derived from the password. -/
def bcrypt_compare (password hash : String) : Bool :=
  hash == bcrypt_hash password

/-- SQL comparison of a bound parameter against a column: binding the JS
value `undefined` sends NULL, and `col = NULL` is never true. -/
def sqlEq : Option String → String → Bool
  | none, _ => false
  | some v, s => v == s

/-- The public summary shape of a user: exactly the four columns
`username, first_name, last_name, phone` — no password hash, no
timestamps. -/
structure UserSummary where
  username : String
  first_name : String
  last_name : String
  phone : String
  deriving DecidableEq, Repr

/-- Project a stored user row to its public summary. -/
def summarize (u : UserRec) : UserSummary :=
  { username := u.username, first_name := u.first_name,
    last_name := u.last_name, phone := u.phone }

/-- The row returned by `User.register`'s `RETURNING username, password,
first_name, last_name, phone` — note that the `password` column (holding
the hash) is part of it. -/
structure RegisterRow where
  username : String
  password : String
  first_name : String
  last_name : String
  phone : String
  deriving DecidableEq, Repr

/-- `User.register` (src/models/user.js lines 16-30): hashes the password
with bcrypt and INSERTs the row with `join_at = last_login_at =
current_timestamp`, `RETURNING username, password, first_name, last_name,
phone`; the returned record is `result.rows[0]`.  A duplicate username
violates the primary key and the INSERT errors. -/
def register (db : DB) (now : Nat)
    (username password first_name last_name phone : String) :
    Except Err (RegisterRow × DB) :=
  let hashedPwd := bcrypt_hash password
  if db.users.any (fun u => u.username == username) then
    Except.error Err.uniqueViolation
  else
    let newUser : UserRec :=
      { username := username, password := hashedPwd,
        first_name := first_name, last_name := last_name, phone := phone,
        join_at := now, last_login_at := now }
    Except.ok
      ({ username := username, password := hashedPwd,
         first_name := first_name, last_name := last_name, phone := phone },
       { db with users := db.users ++ [newUser] })

/-- `User.authenticate` (src/models/user.js lines 34-48): SELECTs the row
for the username and returns `user && await bcrypt.compare(password,
user.password)` — the JS `&&` yields `undefined` when no row was found,
and the boolean comparison result otherwise.  The SELECT writes nothing,
so the database component is returned unchanged. -/
def authenticate (db : DB) (username password : String) : JSVal × DB :=
  match (db.users.filter fun u => u.username == username).head? with
  | none => (JSVal.undef, db)
  | some u => (JSVal.bool (bcrypt_compare password u.password), db)

/-- `User.updateLoginTimestamp` (src/models/user.js lines 52-67): runs
`UPDATE users SET last_login_at = current_timestamp WHERE username = $1
RETURNING username` with the parameter array `[,username]` — a hole
followed by the name — so `$1` is bound to the hole (JS `undefined`,
sent as NULL) and the username is an unused extra parameter.  When the
RETURNING set is empty it throws the 404 `ExpressError`. -/
def updateLoginTimestamp (db : DB) (now : Nat) (username : String) :
    Except Err (String × DB) :=
  let params : List (Option String) := [none, some username]
  let dollar1 : Option String := params.getD 0 none
  let updated := db.users.map fun u =>
    if sqlEq dollar1 u.username then { u with last_login_at := now } else u
  let returning :=
    (db.users.filter fun u => sqlEq dollar1 u.username).map fun u => u.username
  match returning.head? with
  | none => Except.error Err.notFound404
  | some un => Except.ok (un, { db with users := updated })

/-- `User.all` (src/models/user.js lines 72-82): `SELECT username,
first_name, last_name, phone FROM users ORDER BY username`.  The sort is
modelled by insertion sort on the username key (any ORDER BY
implementation is a sorted permutation). -/
def allUsers (db : DB) : List UserSummary :=
  List.insertionSort (fun a b => a.username ≤ b.username)
    (db.users.map summarize)

/-- The detail shape of `User.get`. -/
structure UserDetail where
  username : String
  first_name : String
  last_name : String
  phone : String
  join_at : Nat
  last_login_at : Nat
  deriving DecidableEq, Repr

/-- `User.get` (src/models/user.js lines 93-109): SELECTs the row by
username, throws the 404 `ExpressError` when absent, otherwise returns the
detail row. -/
def user_get (db : DB) (username : String) : Except Err UserDetail :=
  match (db.users.filter fun u => u.username == username).head? with
  | none => Except.error Err.notFound404
  | some u =>
      Except.ok
        { username := u.username, first_name := u.first_name,
          last_name := u.last_name, phone := u.phone,
          join_at := u.join_at, last_login_at := u.last_login_at }

/-- The single-object shape that `User.messagesFrom` tries to build from
`result.rows[0]` (not a list — the code destructures only the first row). -/
structure MsgFromRow where
  id : Nat
  to_user : Option UserSummary
  body : String
  sent_at : Nat
  read_at : Option Nat
  deriving DecidableEq, Repr

/-- Model of the second query of `User.messagesFrom`: `SELECT username,
first_name, last_name, phone WHERE username = $1`.  The statement has no
FROM clause, so the column references cannot be resolved and the store
rejects the query. -/
def query_users_without_from (_dollar1 : Option String) :
    Except Err (List UserSummary) :=
  Except.error Err.sqlNoFrom

/-- `User.messagesFrom` (src/models/user.js lines 119-146): SELECTs all
messages with `from_username = $1`, then destructures `result.rows[0]`
(a `TypeError` when there is no row), then runs the FROM-less user query
(which always errors), and would return a single object built from that
first row. -/
def messagesFrom (db : DB) (username : String) : Except Err MsgFromRow :=
  let rows := db.messages.filter fun m => m.from_username == username
  match rows.head? with
  | none => Except.error Err.typeError
  | some m =>
      match query_users_without_from (some m.to_username) with
      | Except.error e => Except.error e
      | Except.ok toRows =>
          Except.ok
            { id := m.id, to_user := toRows.head?, body := m.body,
              sent_at := m.sent_at, read_at := m.read_at }

/-- An element of the list `User.messagesTo` maps its rows to. -/
structure MsgToRow where
  id : Nat
  from_user : UserSummary
  body : String
  sent_at : Nat
  read_at : Option Nat
  deriving DecidableEq, Repr

/-- The columns of the `users` table (conceptual schema of the spec:
`users(username PK, password_hash, first_name, last_name, phone, join_at,
last_login_at)`; the schema file itself is not under the sources).  There
is no `id` column. -/
def usersTableColumns : List String :=
  ["username", "password", "first_name", "last_name", "phone",
   "join_at", "last_login_at"]

/-- `User.messagesTo` (src/models/user.js lines 156-181): runs
`SELECT m.id, m.from_username, m.body, m.sent_at, m.read_at, u.id,
u.first_name, u.last_name, u.phone FROM messages AS m JOIN users AS u ON
m.from_username = u.username WHERE to_username = $1` and maps the rows to
`MsgToRow` records.  The select list names `u.id`, but the users table has
no `id` column, so the store rejects the whole query before producing any
row; the row mapping below the guard is the JS `.map` of the code and is
unreachable. -/
def messagesTo (db : DB) (username : String) : Except Err (List MsgToRow) :=
  if usersTableColumns.contains "id" then
    Except.ok
      ((db.messages.filter fun m => m.to_username == username).filterMap
        fun m =>
          (db.users.filter fun u => u.username == m.from_username).head?.map
            fun u =>
              { id := m.id,
                from_user :=
                  { username := m.from_username, first_name := u.first_name,
                    last_name := u.last_name, phone := u.phone },
                body := m.body, sent_at := m.sent_at, read_at := m.read_at })
  else
    Except.error Err.sqlUndefinedColumn

/-- Equality as the JavaScript `==` between a possibly-`undefined` value
and a string: `undefined` equals no string. -/
def jsEqStr : Option String → String → Bool
  | none, _ => false
  | some a, b => a == b

/-- The detail shape of the spec's `MessageStore.get`. -/
structure MessageDetail where
  id : Nat
  body : String
  sent_at : Nat
  read_at : Option Nat
  from_user : UserSummary
  to_user : UserSummary
  deriving DecidableEq, Repr

/-- Modelled from the spec: `MessageStore.get(id, requestingUsername)` —
the Message model file is absent from the sources.  Fetches the message by
id (`NotFoundError` when absent); the result is returned only if
`requestingUsername` equals the message's `fromUsername` or `toUsername`,
otherwise the call fails with `ForbiddenError`; participant summaries are
resolved through the user directory.  The requesting username is an
`Option` because the router passes no second argument, i.e. JS
`undefined`. -/
def message_get (db : DB) (id : Nat) (requestingUsername : Option String) :
    Except Err MessageDetail :=
  match db.messages.find? fun m => m.id == id with
  | none => Except.error Err.notFound404
  | some m =>
      if jsEqStr requestingUsername m.from_username
          || jsEqStr requestingUsername m.to_username then
        match (db.users.filter fun u => u.username == m.from_username).head?,
            (db.users.filter fun u => u.username == m.to_username).head? with
        | some fu, some tu =>
            Except.ok
              { id := m.id, body := m.body, sent_at := m.sent_at,
                read_at := m.read_at, from_user := summarize fu,
                to_user := summarize tu }
        | _, _ => Except.error Err.notFound404
      else Except.error Err.forbidden

/-- Modelled from the spec: `MessageStore.create(fromUsername, toUsername,
body)` — the Message model file is absent from the sources.  Both
usernames must reference existing users (`NotFoundError` otherwise), the
body must be non-empty (`ValidationError`), a fresh id is generated and
the row is persisted with `sent_at = now` and `read_at` NULL. -/
def message_create (db : DB) (now : Nat)
    (from_username to_username body : String) :
    Except Err (MessageRec × DB) :=
  if body = "" then
    Except.error Err.validationError
  else if (db.users.any fun u => u.username == from_username)
      && (db.users.any fun u => u.username == to_username) then
    let newId := (db.messages.map fun m => m.id).foldr max 0 + 1
    let m : MessageRec :=
      { id := newId, from_username := from_username,
        to_username := to_username, body := body, sent_at := now,
        read_at := none }
    Except.ok (m, { db with messages := db.messages ++ [m] })
  else
    Except.error Err.notFound404

/-- The storage layer's conditional write for the read transition:
`UPDATE messages SET read_at = now WHERE id = $1 AND read_at IS NULL`
(spec section 5's atomic conditional update). -/
def markMessages (msgs : List MessageRec) (mid now : Nat) :
    List MessageRec :=
  msgs.map fun x =>
    if x.id == mid && x.read_at == none then { x with read_at := some now }
    else x

/-- Modelled from the spec: `MessageStore.markRead(id,
requestingUsername)` — the Message model file is absent from the sources.
Fetches the message (`NotFoundError` when absent); only the message's
`toUsername` may perform the transition (`ForbiddenError` otherwise);
when `read_at` is already set the call is an idempotent no-op returning
the existing `read_at` unchanged (the conditional write of spec section 5
matches no row), and on the first successful call `read_at` is set to the
current time. -/
def message_markRead (db : DB) (now : Nat) (id : Nat)
    (requestingUsername : Option String) :
    Except Err ((Nat × Nat) × DB) :=
  match db.messages.find? fun m => m.id == id with
  | none => Except.error Err.notFound404
  | some m =>
      if jsEqStr requestingUsername m.to_username then
        match m.read_at with
        | some t => Except.ok ((m.id, t), db)
        | none =>
            Except.ok ((m.id, now),
              { db with messages := markMessages db.messages id now })
      else Except.error Err.forbidden

/-- The message-detail route (src/models/user.js lines 203-210,
`router.get("/:id")`): despite its comment — "Make sure that the
currently-logged-in users is either the to or from user" — the handler
calls `Message.get(req.params.id)` with the id only, ignoring the
logged-in user entirely, so the core receives `undefined` as the
requesting username. -/
def routeGetMessage (db : DB) (id : Nat) (_loggedInUsername : String) :
    Except Err MessageDetail :=
  message_get db id none

/-- The mark-read route (src/models/user.js lines 240-247,
`router.post("/:id/read")`): despite its comment — "Make sure that the
only the intended recipient can mark as read" — the handler calls
`Message.markRead(req.params.id)` with the id only, ignoring the
logged-in user, so the core receives `undefined` as the requesting
username. -/
def routeMarkRead (db : DB) (now : Nat) (id : Nat)
    (_loggedInUsername : String) : Except Err ((Nat × Nat) × DB) :=
  message_markRead db now id none

/-- The empty database. -/
def emptyDB : DB := { users := [], messages := [] }

/-- Sample user row for the concrete scenarios. -/
def aliceRow : UserRec :=
  { username := "alice", password := bcrypt_hash "pw1",
    first_name := "Alice", last_name := "Anders", phone := "111",
    join_at := 0, last_login_at := 0 }

/-- Sample user row for the concrete scenarios. -/
def bobRow : UserRec :=
  { username := "bob", password := bcrypt_hash "pw2",
    first_name := "Bob", last_name := "Baker", phone := "222",
    join_at := 0, last_login_at := 0 }

/-- Sample stored message: alice wrote "hi" to bob, still unread. -/
def msg1 : MessageRec :=
  { id := 1, from_username := "alice", to_username := "bob",
    body := "hi", sent_at := 1, read_at := none }

/-- Sample database: users alice and bob, one unread message from alice
to bob. -/
def sampleDB : DB := { users := [aliceRow, bobRow], messages := [msg1] }

/-- C1: the claim requires that a participant (here the recipient bob, and
likewise the sender alice) receives the message detail while every
outsider fails with `ForbiddenError`.  On the code, the message-detail
route never passes the logged-in username to the core — `Message.get`
receives `undefined` — so for every requesting username, participant or
not, the route fails with `ForbiddenError`; in particular bob, the
recipient of message 1, is denied the detail the claim promises him. -/
theorem route_get_message_denies_everyone (u : String) :
    routeGetMessage sampleDB 1 u = Except.error Err.forbidden := rfl

/-- C2: the claim requires that the recipient — and only the recipient —
can perform the unread-to-read transition.  On the code, the mark-read
route never passes the logged-in username to the core — `Message.markRead`
receives `undefined` — so for every requesting username, including bob
(the recipient of message 1), the route fails with `ForbiddenError` and
the transition is never possible. -/
theorem route_mark_read_denies_everyone (now : Nat) (u : String) :
    routeMarkRead sampleDB now 1 u = Except.error Err.forbidden := rfl

/-- C4 counterexample: registering alice on an empty database returns a
row whose `password` field holds the derived bcrypt hash — the hash IS
part of `register`'s result, contrary to the claim that it never is. -/
theorem register_result_contains_hash :
    (register emptyDB 0 "alice" "pw1" "Alice" "Anders" "111").toOption.map
        (fun p => p.fst.password) = some (bcrypt_hash "pw1") := rfl

/-- C6: on the code, `updateLoginTimestamp` binds `$1` to the hole of the
parameter array `[,username]` (JS `undefined`), so the UPDATE matches no
row and the call fails with the 404 error for every database and every
username — even for alice, who exists in the sample database. -/
theorem updateLoginTimestamp_always_fails (db : DB) (now : Nat)
    (username : String) :
    updateLoginTimestamp db now username = Except.error Err.notFound404 := by
  simp [updateLoginTimestamp, sqlEq]

/-- C8: `messagesFrom` never returns the claimed list of outgoing
messages: for alice, who has a stored outgoing message in the sample
database, the FROM-less second query makes the call error (and for a
sender with no stored message the destructuring of `rows[0]` is a
`TypeError`). -/
theorem messagesFrom_always_errors :
    messagesFrom sampleDB "alice" = Except.error Err.sqlNoFrom
    ∧ messagesFrom sampleDB "nobody" = Except.error Err.typeError :=
  ⟨rfl, rfl⟩

/-- C9: `messagesTo` never returns the claimed list of incoming messages:
its join query names the column `u.id`, which the users table does not
have, so for bob — who has a stored incoming message in the sample
database — the call errors instead of returning that message. -/
theorem messagesTo_always_errors :
    messagesTo sampleDB "bob" = Except.error Err.sqlUndefinedColumn := rfl

/-- C10: `authenticate` is read-only — it returns the database unchanged
(hence every user record, including the `last_login_at` of the user being
authenticated, is untouched) whether the lookup succeeds or fails. -/
theorem authenticate_preserves_state (db : DB) (username password : String) :
    (authenticate db username password).snd = db := by
  cases h : (db.users.filter fun u => u.username == username).head? <;>
    simp [authenticate, h]

/-- C4 (amended): a successful `register` returns the stored attributes
together with the `password` column holding the derived bcrypt hash —
the hash is part of the result (the raw password itself is never stored;
only its hash is). -/
theorem register_ok_shape (db : DB) (now : Nat)
    (un pw fn ln ph : String) (row : RegisterRow) (db' : DB)
    (h : register db now un pw fn ln ph = Except.ok (row, db')) :
    row.username = un ∧ row.password = bcrypt_hash pw
    ∧ row.first_name = fn ∧ row.last_name = ln ∧ row.phone = ph := by
  unfold register at h
  split at h
  · exact absurd h (by simp)
  · simp only [Except.ok.injEq, Prod.mk.injEq] at h
    obtain ⟨hrow, -⟩ := h
    subst hrow
    exact ⟨rfl, rfl, rfl, rfl, rfl⟩

/-- Witness for C4's amended theorem at a concrete registration. -/
theorem register_ok_shape_witness :
    ({ username := "alice", password := bcrypt_hash "pw1",
       first_name := "Alice", last_name := "Anders",
       phone := "111" } : RegisterRow).username = "alice"
    ∧ ({ username := "alice", password := bcrypt_hash "pw1",
         first_name := "Alice", last_name := "Anders",
         phone := "111" } : RegisterRow).password = bcrypt_hash "pw1"
    ∧ ({ username := "alice", password := bcrypt_hash "pw1",
         first_name := "Alice", last_name := "Anders",
         phone := "111" } : RegisterRow).first_name = "Alice"
    ∧ ({ username := "alice", password := bcrypt_hash "pw1",
         first_name := "Alice", last_name := "Anders",
         phone := "111" } : RegisterRow).last_name = "Anders"
    ∧ ({ username := "alice", password := bcrypt_hash "pw1",
         first_name := "Alice", last_name := "Anders",
         phone := "111" } : RegisterRow).phone = "111" :=
  register_ok_shape emptyDB 0 "alice" "pw1" "Alice" "Anders" "111" _
    { users := [{ username := "alice", password := bcrypt_hash "pw1",
                  first_name := "Alice", last_name := "Anders",
                  phone := "111", join_at := 0, last_login_at := 0 }],
      messages := [] } rfl

/-- C5 counterexample: authenticating an unknown username yields the
JavaScript value `undefined` (`user && ...` with `user` undefined), not
the boolean `false` the claim states. -/
theorem authenticate_missing_user_is_undef :
    (authenticate emptyDB "nobody" "x").fst = JSVal.undef
    ∧ JSVal.undef ≠ JSVal.bool false :=
  ⟨rfl, by decide⟩

/-- C5 (amended): when usernames are unique, `authenticate` returns the
boolean `true` exactly when a user with that username exists and the
password matches the stored hash under the verification primitive; when
no such user exists it returns `undefined` — a falsy value, not an error,
but also not the boolean `false`. -/
theorem authenticate_amended (db : DB) (un pw : String)
    (huniq : (db.users.map fun u => u.username).Nodup) :
    ((authenticate db un pw).fst = JSVal.bool true ↔
        ∃ u ∈ db.users, u.username = un ∧ bcrypt_compare pw u.password = true)
    ∧ ((¬ ∃ u ∈ db.users, u.username = un) →
        (authenticate db un pw).fst = JSVal.undef) := by
  constructor
  · constructor
    · intro h
      cases hh : (db.users.filter fun u => u.username == un).head? with
      | none => simp [authenticate, hh] at h
      | some u =>
          have hu : u ∈ db.users.filter fun v => v.username == un :=
            List.mem_of_mem_head? hh
          have hmem : u ∈ db.users := (List.mem_filter.mp hu).1
          have hname : u.username = un := by
            simpa using (List.mem_filter.mp hu).2
          refine ⟨u, hmem, hname, ?_⟩
          simp only [authenticate, hh] at h
          cases hcmp : bcrypt_compare pw u.password with
          | false => rw [hcmp] at h; exact absurd h (by simp)
          | true => rfl
    · rintro ⟨u, hmem, hname, hcmp⟩
      cases hh : (db.users.filter fun v => v.username == un).head? with
      | none =>
          have : u ∈ db.users.filter fun v => v.username == un :=
            List.mem_filter.mpr ⟨hmem, by simp [hname]⟩
          rw [List.head?_eq_none_iff] at hh
          rw [hh] at this
          cases this
      | some u0 =>
          have hu0 : u0 ∈ db.users.filter fun v => v.username == un :=
            List.mem_of_mem_head? hh
          have hmem0 : u0 ∈ db.users := (List.mem_filter.mp hu0).1
          have hname0 : u0.username = un := by
            simpa using (List.mem_filter.mp hu0).2
          have : u0 = u :=
            List.inj_on_of_nodup_map huniq hmem0 hmem
              (hname0.trans hname.symm)
          subst this
          simp [authenticate, hh, hcmp]
  · intro hno
    cases hh : (db.users.filter fun v => v.username == un).head? with
    | none => simp [authenticate, hh]
    | some u0 =>
        have hu0 : u0 ∈ db.users.filter fun v => v.username == un :=
          List.mem_of_mem_head? hh
        have hmem0 : u0 ∈ db.users := (List.mem_filter.mp hu0).1
        have hname0 : u0.username = un := by
          simpa using (List.mem_filter.mp hu0).2
        exact absurd ⟨u0, hmem0, hname0⟩ hno

/-- Witness for C5's amended theorem: alice with her correct password in
the sample database. -/
theorem authenticate_amended_witness :
    (((authenticate sampleDB "alice" "pw1").fst = JSVal.bool true ↔
        ∃ u ∈ sampleDB.users, u.username = "alice"
          ∧ bcrypt_compare "pw1" u.password = true)
    ∧ ((¬ ∃ u ∈ sampleDB.users, u.username = "alice") →
        (authenticate sampleDB "alice" "pw1").fst = JSVal.undef)) :=
  authenticate_amended sampleDB "alice" "pw1" (by decide)

/-- The ORDER BY key of `User.all`: comparison of summaries by username. -/
def byUsername (a b : UserSummary) : Prop :=
  a.username ≤ b.username

instance : DecidableRel byUsername :=
  fun a b => inferInstanceAs (Decidable (a.username ≤ b.username))

instance : IsTotal UserSummary byUsername :=
  ⟨fun a b => le_total a.username b.username⟩

instance : IsTrans UserSummary byUsername :=
  ⟨fun _ _ _ hab hbc => le_trans hab hbc⟩

/-- C7: `all()` returns exactly one `username, first_name, last_name,
phone` summary per stored user — a permutation of the projections of the
rows — sorted by username in ascending lexicographic order; the result
type `UserSummary` carries no password hash, `join_at` or
`last_login_at` field, so none can appear in any element. -/
theorem allUsers_sorted_perm (db : DB) :
    List.Perm (allUsers db) (db.users.map summarize)
    ∧ List.Sorted byUsername (allUsers db) := by
  constructor
  · exact List.perm_insertionSort _ _
  · exact List.sorted_insertionSort byUsername _

/-- `updateLoginTimestamp` never updates anything: `$1` is bound to the
hole of `[,username]`, so the WHERE clause matches no row and the call
errors. -/
theorem updateLoginTimestamp_never_updates (db : DB) (now : Nat)
    (username : String) :
    updateLoginTimestamp db now username = Except.error Err.notFound404 := by
  simp [updateLoginTimestamp, sqlEq]

/-- `authenticate` returns its database component unchanged. -/
theorem authenticate_snd (db : DB) (username password : String) :
    (authenticate db username password).snd = db := by
  cases h : (db.users.filter fun u => u.username == username).head? <;>
    simp [authenticate, h]

/-- One operation of the system, for stating state invariants over every
entry point of the core. -/
inductive Op where
  | doRegister (now : Nat)
      (username password first_name last_name phone : String)
  | doAuth (username password : String)
  | doUpdateLogin (now : Nat) (username : String)
  | doListAll
  | doGetUser (username : String)
  | doMsgsFrom (username : String)
  | doMsgsTo (username : String)
  | doCreate (now : Nat) (from_username to_username body : String)
  | doMsgGet (id : Nat) (requester : Option String)
  | doMarkRead (now : Nat) (id : Nat) (requester : Option String)

/-- Apply one operation to the database: state-changing operations commit
their new state only on success (a failed call leaves the state as it
was); read-only operations return the state unchanged. -/
def applyOp (db : DB) : Op → DB
  | Op.doRegister now un pw fn ln ph =>
      match register db now un pw fn ln ph with
      | Except.ok (_, db') => db'
      | Except.error _ => db
  | Op.doAuth un pw => (authenticate db un pw).snd
  | Op.doUpdateLogin now un =>
      match updateLoginTimestamp db now un with
      | Except.ok (_, db') => db'
      | Except.error _ => db
  | Op.doListAll => db
  | Op.doGetUser _ => db
  | Op.doMsgsFrom _ => db
  | Op.doMsgsTo _ => db
  | Op.doCreate now f t b =>
      match message_create db now f t b with
      | Except.ok (_, db') => db'
      | Except.error _ => db
  | Op.doMsgGet _ _ => db
  | Op.doMarkRead now id u =>
      match message_markRead db now id u with
      | Except.ok (_, db') => db'
      | Except.error _ => db

/-- The `read_at` column of the stored message with the given id:
`none` when no such message exists, `some r` when it exists and its
`read_at` is `r`. -/
def readAtOf (db : DB) (id : Nat) : Option (Option Nat) :=
  (db.messages.find? fun m => m.id == id).map fun m => m.read_at

/-- `readAtOf` only looks at the messages table. -/
theorem readAtOf_congr (d d' : DB) (id : Nat)
    (h : d'.messages = d.messages) : readAtOf d' id = readAtOf d id := by
  unfold readAtOf
  rw [h]

/-- Finding a message by id commutes with mapping an id-preserving
function over the table. -/
theorem find?_map_id_preserving (f : MessageRec → MessageRec)
    (hf : ∀ m, (f m).id = m.id) (l : List MessageRec) (id : Nat) :
    (l.map f).find? (fun m => m.id == id)
      = (l.find? fun m => m.id == id).map f := by
  induction l with
  | nil => rfl
  | cons x xs ih =>
      simp only [List.map_cons, List.find?]
      rw [hf x]
      cases hx : x.id == id
      · simpa using ih
      · rfl

/-- The conditional write of `markMessages` preserves every id. -/
theorem markMessages_preserves_id (mid now : Nat) (m : MessageRec) :
    (if m.id == mid && m.read_at == none then { m with read_at := some now }
      else m).id = m.id := by
  split <;> rfl

/-- If a predicate already finds a witness in the left list, appending
rows on the right does not change the result. -/
theorem find?_append_of_some {α : Type} {p : α → Bool} {l l' : List α}
    {a : α} (h : l.find? p = some a) : (l ++ l').find? p = some a := by
  induction l with
  | nil => simp [List.find?] at h
  | cons x xs ih =>
      rw [List.cons_append]
      simp only [List.find?] at h ⊢
      cases hx : p x
      · rw [hx] at h
        exact ih h
      · rw [hx] at h
        exact h

/-- C3: one-step transition invariant for `read_at`.  For any stored
message and any single operation of the system, either the message's
`read_at` is unchanged (in particular by every failed or repeated
`markRead`, and by every operation other than `markRead`), or the
operation was a `markRead`, the field was previously NULL, and it is now
the supplied timestamp — so `read_at` moves only from NULL to a
timestamp, at most once, and only through the mark-read operation. -/
theorem readAt_transition (db : DB) (op : Op) (id : Nat) (r : Option Nat)
    (h : readAtOf db id = some r) :
    readAtOf (applyOp db op) id = some r
    ∨ (r = none ∧ ∃ now mid u, op = Op.doMarkRead now mid u
        ∧ readAtOf (applyOp db op) id = some (some now)) := by
  cases op with
  | doRegister now un pw fn ln ph =>
      left
      cases hc : register db now un pw fn ln ph with
      | error e =>
          have hm : applyOp db (Op.doRegister now un pw fn ln ph) = db := by
            simp [applyOp, hc]
          rw [hm]
          exact h
      | ok res =>
          obtain ⟨row, db'⟩ := res
          have hm : applyOp db (Op.doRegister now un pw fn ln ph) = db' := by
            simp [applyOp, hc]
          have hmsg : db'.messages = db.messages := by
            simp only [register] at hc
            split at hc
            · cases hc
            · simp only [Except.ok.injEq, Prod.mk.injEq] at hc
              obtain ⟨-, hdb⟩ := hc
              subst hdb
              rfl
          rw [hm, readAtOf_congr db db' id hmsg]
          exact h
  | doAuth un pw =>
      left
      have hm : applyOp db (Op.doAuth un pw) = db := authenticate_snd db un pw
      rw [hm]
      exact h
  | doUpdateLogin now un =>
      left
      have hm : applyOp db (Op.doUpdateLogin now un) = db := by
        simp [applyOp, updateLoginTimestamp_never_updates]
      rw [hm]
      exact h
  | doListAll => exact Or.inl h
  | doGetUser un => exact Or.inl h
  | doMsgsFrom un => exact Or.inl h
  | doMsgsTo un => exact Or.inl h
  | doMsgGet mid u => exact Or.inl h
  | doCreate now f t b =>
      left
      cases hc : message_create db now f t b with
      | error e =>
          have hm : applyOp db (Op.doCreate now f t b) = db := by
            simp [applyOp, hc]
          rw [hm]
          exact h
      | ok res =>
          obtain ⟨row, db'⟩ := res
          have hm : applyOp db (Op.doCreate now f t b) = db' := by
            simp [applyOp, hc]
          have hmsg : db'.messages = db.messages ++ [row] := by
            simp only [message_create] at hc
            split at hc
            · cases hc
            · split at hc
              · simp only [Except.ok.injEq, Prod.mk.injEq] at hc
                obtain ⟨hrow, hdb⟩ := hc
                subst hdb
                rw [hrow]
              · cases hc
          obtain ⟨m0, hm0, hr0⟩ : ∃ m0,
              db.messages.find? (fun m => m.id == id) = some m0
              ∧ m0.read_at = r := by
            unfold readAtOf at h
            cases hf : db.messages.find? fun m => m.id == id with
            | none => rw [hf] at h; cases h
            | some m0 =>
                rw [hf] at h
                exact ⟨m0, rfl, by simpa using h⟩
          rw [hm]
          unfold readAtOf
          rw [hmsg, find?_append_of_some hm0]
          simp [hr0]
  | doMarkRead now mid u =>
      cases hfind : db.messages.find? fun m => m.id == mid with
      | none =>
          left
          have hm : applyOp db (Op.doMarkRead now mid u) = db := by
            simp [applyOp, message_markRead, hfind]
          rw [hm]
          exact h
      | some m =>
          by_cases hauth : jsEqStr u m.to_username = true
          · cases hra : m.read_at with
            | some t =>
                left
                have hm : applyOp db (Op.doMarkRead now mid u) = db := by
                  simp [applyOp, message_markRead, hfind, hauth, hra]
                rw [hm]
                exact h
            | none =>
                have hm : applyOp db (Op.doMarkRead now mid u)
                    = { db with
                        messages := markMessages db.messages mid now } := by
                  simp [applyOp, message_markRead, hfind, hauth, hra]
                obtain ⟨m0, hm0, hr0⟩ : ∃ m0,
                    db.messages.find? (fun mm => mm.id == id) = some m0
                    ∧ m0.read_at = r := by
                  unfold readAtOf at h
                  cases hf : db.messages.find? fun mm => mm.id == id with
                  | none => rw [hf] at h; cases h
                  | some m0 =>
                      rw [hf] at h
                      exact ⟨m0, rfl, by simpa using h⟩
                have hfmap :
                    readAtOf (applyOp db (Op.doMarkRead now mid u)) id
                      = some (if m0.id == mid && m0.read_at == none
                          then some now else m0.read_at) := by
                  rw [hm]
                  unfold readAtOf
                  simp only [markMessages]
                  rw [find?_map_id_preserving _
                    (markMessages_preserves_id mid now) _ id]
                  rw [hm0]
                  simp only [Option.map_some']
                  by_cases hc : (m0.id == mid && m0.read_at == none) = true
                  · rw [if_pos hc, if_pos hc]
                  · rw [if_neg hc, if_neg hc]
                by_cases hc : (m0.id == mid && m0.read_at == none) = true
                · right
                  have hrnone : m0.read_at = none := by
                    have hand := (Bool.and_eq_true _ _).mp hc
                    simpa using hand.2
                  refine ⟨by rw [← hr0]; exact hrnone,
                    now, mid, u, rfl, ?_⟩
                  rw [hfmap, if_pos hc]
                · left
                  rw [hfmap, if_neg hc, hr0]
          · left
            have hm : applyOp db (Op.doMarkRead now mid u) = db := by
              simp [applyOp, message_markRead, hfind, hauth]
            rw [hm]
            exact h

/-- Witness for the `read_at` transition invariant: in the sample
database message 1 is unread, and bob's successful mark-read at time 5
realises the NULL-to-timestamp transition. -/
theorem readAt_transition_witness :
    readAtOf (applyOp sampleDB (Op.doMarkRead 5 1 (some "bob"))) 1
      = some (none : Option Nat)
    ∨ ((none : Option Nat) = none
        ∧ ∃ now mid u, Op.doMarkRead 5 1 (some "bob") = Op.doMarkRead now mid u
          ∧ readAtOf (applyOp sampleDB (Op.doMarkRead 5 1 (some "bob"))) 1
              = some (some now)) :=
  readAt_transition sampleDB (Op.doMarkRead 5 1 (some "bob")) 1 none rfl
